import Mathlib

/-!
Verification of the wuffs compiler front-end / C code generator against its
natural-language specification.  The definitions below are shallow embeddings
of the Go source under src/: the token catalog and operator-form tables
(src/lang/token/list.go), AST equality (the ast package), and the
coroutine-lowering statement generator (src/cmd/wuffs-c/internal/cgen).
-/

namespace Wuffs

/-! ## Token IDs (src/lang/token/list.go, const blocks) -/

def nBuiltInSymbolicIDs : Nat := 0x70

def minAssign : Nat := 0x10
def maxAssign : Nat := 0x1F

def IDEq : Nat := 0x10
def IDPlusEq : Nat := 0x11
def IDMinusEq : Nat := 0x12
def IDStarEq : Nat := 0x13
def IDSlashEq : Nat := 0x14
def IDShiftLEq : Nat := 0x15
def IDShiftREq : Nat := 0x16
def IDAmpEq : Nat := 0x17
def IDPipeEq : Nat := 0x18
def IDHatEq : Nat := 0x19
def IDPercentEq : Nat := 0x1A
def IDTildeModPlusEq : Nat := 0x1B
def IDTildeModMinusEq : Nat := 0x1C
def IDTildeSatPlusEq : Nat := 0x1D
def IDTildeSatMinusEq : Nat := 0x1E
def IDEqColon : Nat := 0x1F

def minOp : Nat := 0x20
def maxOp : Nat := 0x6F

def IDPlus : Nat := 0x21
def IDMinus : Nat := 0x22
def IDStar : Nat := 0x23
def IDSlash : Nat := 0x24
def IDShiftL : Nat := 0x25
def IDShiftR : Nat := 0x26
def IDAmp : Nat := 0x27
def IDPipe : Nat := 0x28
def IDHat : Nat := 0x29
def IDPercent : Nat := 0x2A
def IDTildeModPlus : Nat := 0x2B
def IDTildeModMinus : Nat := 0x2C
def IDTildeSatPlus : Nat := 0x2D
def IDTildeSatMinus : Nat := 0x2E

def IDNotEq : Nat := 0x30
def IDLessThan : Nat := 0x31
def IDLessEq : Nat := 0x32
def IDEqEq : Nat := 0x33
def IDGreaterEq : Nat := 0x34
def IDGreaterThan : Nat := 0x35

def IDAnd : Nat := 0x38
def IDOr : Nat := 0x39
def IDNot : Nat := 0x3A
def IDAs : Nat := 0x3B
def IDRef : Nat := 0x3C
def IDDeref : Nat := 0x3D

def IDXUnaryPlus : Nat := 0x40
def IDXUnaryMinus : Nat := 0x41
def IDXUnaryNot : Nat := 0x42
def IDXUnaryRef : Nat := 0x43
def IDXUnaryDeref : Nat := 0x44

def IDXBinaryPlus : Nat := 0x48
def IDXBinaryMinus : Nat := 0x49
def IDXBinaryStar : Nat := 0x4A
def IDXBinarySlash : Nat := 0x4B
def IDXBinaryShiftL : Nat := 0x4C
def IDXBinaryShiftR : Nat := 0x4D
def IDXBinaryAmp : Nat := 0x4E
def IDXBinaryPipe : Nat := 0x4F
def IDXBinaryHat : Nat := 0x50
def IDXBinaryPercent : Nat := 0x51
def IDXBinaryTildeModPlus : Nat := 0x52
def IDXBinaryTildeModMinus : Nat := 0x53
def IDXBinaryTildeSatPlus : Nat := 0x54
def IDXBinaryTildeSatMinus : Nat := 0x55
def IDXBinaryNotEq : Nat := 0x56
def IDXBinaryLessThan : Nat := 0x57
def IDXBinaryLessEq : Nat := 0x58
def IDXBinaryEqEq : Nat := 0x59
def IDXBinaryGreaterEq : Nat := 0x5A
def IDXBinaryGreaterThan : Nat := 0x5B
def IDXBinaryAnd : Nat := 0x5C
def IDXBinaryOr : Nat := 0x5D
def IDXBinaryAs : Nat := 0x5E

def IDXAssociativePlus : Nat := 0x60
def IDXAssociativeStar : Nat := 0x61
def IDXAssociativeAmp : Nat := 0x62
def IDXAssociativePipe : Nat := 0x63
def IDXAssociativeHat : Nat := 0x64
def IDXAssociativeAnd : Nat := 0x65
def IDXAssociativeOr : Nat := 0x66

def IDBreak : Nat := 0x76
def IDError : Nat := 0x81
def IDTry : Nat := 0x85
def IDYield : Nat := 0x87

def IDArray : Nat := 0x90
def IDNptr : Nat := 0x91
def IDPtr : Nat := 0x92

def IDBool : Nat := 0x101
def IDIOWriter : Nat := 0x113
def IDStatus : Nat := 0x114
def IDI8 : Nat := 0x120
def IDI16 : Nat := 0x121
def IDI32 : Nat := 0x122
def IDI64 : Nat := 0x123
def IDU8 : Nat := 0x124
def IDU16 : Nat := 0x125
def IDU32 : Nat := 0x126
def IDU64 : Nat := 0x127
def IDBase : Nat := 0x134

def IDDot : Nat := 0x08
def IDDotDot : Nat := 0x09
def IDExclam : Nat := 0x0B

/-! ## Operator form tables (src/lang/token/list.go, lines 899-984)

Each Go table is a `[nBuiltInSymbolicIDs]ID` array; we embed it as a total
function on `Nat` that returns the array entry for indices below 0x70 and 0
elsewhere (the Go array does not have such entries, and the `ID.UnaryForm`
etc. accessors bounds-check before indexing). -/

/-- The explicit entries of the `unaryForms` array, before the `init`
function runs `addXForms` on it. -/
def unaryFormsBase (x : Nat) : Nat :=
  if x = IDPlus then IDXUnaryPlus
  else if x = IDMinus then IDXUnaryMinus
  else if x = IDNot then IDXUnaryNot
  else if x = IDRef then IDXUnaryRef
  else if x = IDDeref then IDXUnaryDeref
  else 0

/-- The explicit entries of the `binaryForms` array, before `addXForms`. -/
def binaryFormsBase (x : Nat) : Nat :=
  if x = IDPlusEq then IDXBinaryPlus
  else if x = IDMinusEq then IDXBinaryMinus
  else if x = IDStarEq then IDXBinaryStar
  else if x = IDSlashEq then IDXBinarySlash
  else if x = IDShiftLEq then IDXBinaryShiftL
  else if x = IDShiftREq then IDXBinaryShiftR
  else if x = IDAmpEq then IDXBinaryAmp
  else if x = IDPipeEq then IDXBinaryPipe
  else if x = IDHatEq then IDXBinaryHat
  else if x = IDPercentEq then IDXBinaryPercent
  else if x = IDTildeModPlusEq then IDXBinaryTildeModPlus
  else if x = IDTildeModMinusEq then IDXBinaryTildeModMinus
  else if x = IDTildeSatPlusEq then IDXBinaryTildeSatPlus
  else if x = IDTildeSatMinusEq then IDXBinaryTildeSatMinus
  else if x = IDPlus then IDXBinaryPlus
  else if x = IDMinus then IDXBinaryMinus
  else if x = IDStar then IDXBinaryStar
  else if x = IDSlash then IDXBinarySlash
  else if x = IDShiftL then IDXBinaryShiftL
  else if x = IDShiftR then IDXBinaryShiftR
  else if x = IDAmp then IDXBinaryAmp
  else if x = IDPipe then IDXBinaryPipe
  else if x = IDHat then IDXBinaryHat
  else if x = IDPercent then IDXBinaryPercent
  else if x = IDTildeModPlus then IDXBinaryTildeModPlus
  else if x = IDTildeModMinus then IDXBinaryTildeModMinus
  else if x = IDTildeSatPlus then IDXBinaryTildeSatPlus
  else if x = IDTildeSatMinus then IDXBinaryTildeSatMinus
  else if x = IDNotEq then IDXBinaryNotEq
  else if x = IDLessThan then IDXBinaryLessThan
  else if x = IDLessEq then IDXBinaryLessEq
  else if x = IDEqEq then IDXBinaryEqEq
  else if x = IDGreaterEq then IDXBinaryGreaterEq
  else if x = IDGreaterThan then IDXBinaryGreaterThan
  else if x = IDAnd then IDXBinaryAnd
  else if x = IDOr then IDXBinaryOr
  else if x = IDAs then IDXBinaryAs
  else 0

/-- The explicit entries of the `associativeForms` array, before `addXForms`. -/
def associativeFormsBase (x : Nat) : Nat :=
  if x = IDPlus then IDXAssociativePlus
  else if x = IDStar then IDXAssociativeStar
  else if x = IDAmp then IDXAssociativeAmp
  else if x = IDPipe then IDXAssociativePipe
  else if x = IDHat then IDXAssociativeHat
  else if x = IDAnd then IDXAssociativeAnd
  else if x = IDOr then IDXAssociativeOr
  else 0

/-- `addXForms` modifies a table so that, if `table[x] == y` (nonzero), then
`table[y] = y`.  The Go version first collects the nonzero values into
`implicitEntries` and then writes `table[y] = y` for each collected `y`; the
functional version reads the original table for the membership test, which is
the same thing. -/
def addXForms (table : Nat → Nat) : Nat → Nat := fun y =>
  if y < nBuiltInSymbolicIDs ∧ y ≠ 0 ∧
      ((List.range nBuiltInSymbolicIDs).any fun x => table x == y) then
    y
  else
    table y

/-- The `unaryForms` table after the package `init` has run `addXForms`. -/
def unaryForms : Nat → Nat := addXForms unaryFormsBase

/-- The `binaryForms` table after the package `init` has run `addXForms`. -/
def binaryForms : Nat → Nat := addXForms binaryFormsBase

/-- The `associativeForms` table after `addXForms`. -/
def associativeForms : Nat → Nat := addXForms associativeFormsBase

/-- `ID.UnaryForm`: bounds-checked table lookup (list.go lines 39-44). -/
def UnaryForm (x : Nat) : Nat :=
  if x < nBuiltInSymbolicIDs then unaryForms x else 0

/-- `ID.BinaryForm`: bounds-checked table lookup (list.go lines 46-51). -/
def BinaryForm (x : Nat) : Nat :=
  if x < nBuiltInSymbolicIDs then binaryForms x else 0

/-- `ID.AssociativeForm`: bounds-checked table lookup (list.go lines 53-58). -/
def AssociativeForm (x : Nat) : Nat :=
  if x < nBuiltInSymbolicIDs then associativeForms x else 0

/-- `ID.IsUnaryOp` (list.go line 62). -/
def IsUnaryOp (x : Nat) : Bool :=
  decide (minOp ≤ x) && decide (x ≤ maxOp) && (unaryForms x != 0)

/-- `ID.IsBinaryOp` (list.go line 63). -/
def IsBinaryOp (x : Nat) : Bool :=
  decide (minOp ≤ x) && decide (x ≤ maxOp) && (binaryForms x != 0)

/-- `ID.IsAssociativeOp` (list.go line 64). -/
def IsAssociativeOp (x : Nat) : Bool :=
  decide (minOp ≤ x) && decide (x ≤ maxOp) && (associativeForms x != 0)

/-! ### Generic facts about `addXForms` -/

/-- If every entry of the base table is below the array length, then the
table produced by `addXForms` is fixed-point closed: any nonzero value `y`
found at an index `x < 0x70` satisfies `table[y] = y`. -/
theorem addXForms_closed (t : Nat → Nat)
    (hval : ∀ x, x < nBuiltInSymbolicIDs → t x < nBuiltInSymbolicIDs) :
    ∀ x y, x < nBuiltInSymbolicIDs → addXForms t x = y → y ≠ 0 →
      addXForms t y = y := by
  intro x y hx hxy hy0
  unfold addXForms at hxy ⊢
  by_cases hc : (x < nBuiltInSymbolicIDs ∧ x ≠ 0 ∧
      ((List.range nBuiltInSymbolicIDs).any fun z => t z == x))
  · rw [if_pos hc] at hxy
    subst hxy
    rw [if_pos hc]
  · rw [if_neg hc] at hxy
    have hy : y < nBuiltInSymbolicIDs := hxy ▸ hval x hx
    have hmem : ((List.range nBuiltInSymbolicIDs).any fun z => t z == y) := by
      rw [List.any_eq_true]
      exact ⟨x, List.mem_range.mpr hx, by simp [hxy]⟩
    rw [if_pos ⟨hy, hy0, hmem⟩]

/-- If moreover the base table maps 0 to 0, the bounds-checked form lookup is
idempotent. -/
theorem addXForms_idem (t : Nat → Nat)
    (hval : ∀ x, x < nBuiltInSymbolicIDs → t x < nBuiltInSymbolicIDs)
    (h0 : t 0 = 0) :
    ∀ x, (fun z => if z < nBuiltInSymbolicIDs then addXForms t z else 0)
          ((fun z => if z < nBuiltInSymbolicIDs then addXForms t z else 0) x) =
        (fun z => if z < nBuiltInSymbolicIDs then addXForms t z else 0) x := by
  have hz : addXForms t 0 = 0 := by
    unfold addXForms
    rw [if_neg]
    · exact h0
    · rintro ⟨-, h, -⟩
      exact h rfl
  intro x
  simp only
  by_cases hx : x < nBuiltInSymbolicIDs
  · rw [if_pos hx]
    by_cases hy0 : addXForms t x = 0
    · rw [hy0, if_pos (by norm_num [nBuiltInSymbolicIDs]), hz]
    · have hcl := addXForms_closed t hval x (addXForms t x) hx rfl hy0
      have hlt : addXForms t x < nBuiltInSymbolicIDs := by
        unfold addXForms
        by_cases hc : (x < nBuiltInSymbolicIDs ∧ x ≠ 0 ∧
            ((List.range nBuiltInSymbolicIDs).any fun z => t z == x))
        · rw [if_pos hc]; exact hx
        · rw [if_neg hc]; exact hval x hx
      rw [if_pos hlt, hcl]
  · rw [if_neg hx, if_pos (by norm_num [nBuiltInSymbolicIDs]), hz]

/-- Every entry of the explicit `unaryForms` table is below the array length. -/
theorem unaryFormsBase_lt :
    ∀ x, x < nBuiltInSymbolicIDs → unaryFormsBase x < nBuiltInSymbolicIDs := by decide

/-- Every entry of the explicit `binaryForms` table is below the array length. -/
theorem binaryFormsBase_lt :
    ∀ x, x < nBuiltInSymbolicIDs → binaryFormsBase x < nBuiltInSymbolicIDs := by decide

/-- Every entry of the explicit `associativeForms` table is below the array
length. -/
theorem associativeFormsBase_lt :
    ∀ x, x < nBuiltInSymbolicIDs → associativeFormsBase x < nBuiltInSymbolicIDs := by decide

/-- C3: after the package `init` runs `addXForms`, the three operator form
tables are fixed-point closed: whenever an entry `table[x]` (for an index `x`
of the 0x70-element array) equals a nonzero `y`, then `table[y] = y`.
Consequently the bounds-checked `UnaryForm` / `BinaryForm` /
`AssociativeForm` lookups are idempotent. -/
theorem c3_form_tables_fixed_point :
    ((∀ x y, x < nBuiltInSymbolicIDs → unaryForms x = y → y ≠ 0 →
        unaryForms y = y) ∧
     (∀ x y, x < nBuiltInSymbolicIDs → binaryForms x = y → y ≠ 0 →
        binaryForms y = y) ∧
     (∀ x y, x < nBuiltInSymbolicIDs → associativeForms x = y → y ≠ 0 →
        associativeForms y = y)) ∧
    ((∀ x, UnaryForm (UnaryForm x) = UnaryForm x) ∧
     (∀ x, BinaryForm (BinaryForm x) = BinaryForm x) ∧
     (∀ x, AssociativeForm (AssociativeForm x) = AssociativeForm x)) := by
  refine ⟨⟨?_, ?_, ?_⟩, ?_, ?_, ?_⟩
  · exact addXForms_closed unaryFormsBase unaryFormsBase_lt
  · exact addXForms_closed binaryFormsBase binaryFormsBase_lt
  · exact addXForms_closed associativeFormsBase associativeFormsBase_lt
  · exact addXForms_idem unaryFormsBase unaryFormsBase_lt (by decide)
  · exact addXForms_idem binaryFormsBase binaryFormsBase_lt (by decide)
  · exact addXForms_idem associativeFormsBase associativeFormsBase_lt (by decide)

/-- Witness for C3 at a concrete input: the `binaryForms` entry for `+=` is
the X-binary-plus ID, which the table maps to itself. -/
theorem c3_form_tables_fixed_point_witness :
    IDPlusEq < nBuiltInSymbolicIDs ∧ binaryForms IDPlusEq = IDXBinaryPlus ∧
      IDXBinaryPlus ≠ 0 ∧ binaryForms IDXBinaryPlus = IDXBinaryPlus :=
  ⟨by decide, by decide, by decide,
   c3_form_tables_fixed_point.1.2.1 IDPlusEq IDXBinaryPlus (by decide)
     (by decide) (by decide)⟩

/-- C10 as stated is false: `=` has ID 0x10, which lies in the assignment
range 0x10..0x1F, but the `binaryForms` table has no entry for it, so
`BinaryForm(0x10)` is zero rather than a nonzero X-binary ID. -/
theorem c10_counterexample :
    minAssign ≤ IDEq ∧ IDEq ≤ maxAssign ∧ BinaryForm IDEq = 0 := by decide

/-- C10, amended: outside the operator range 0x20..0x6F the three operator
predicates are always false; in particular each compound assignment operator
(IDs 0x11..0x1E, strictly between `=` and `=:`) has a nonzero binary form in
the `binaryForms` table yet is not a binary operator. -/
theorem c10_assign_ops_not_binary :
    (∀ x, ¬(minOp ≤ x ∧ x ≤ maxOp) →
      IsUnaryOp x = false ∧ IsBinaryOp x = false ∧ IsAssociativeOp x = false) ∧
    (∀ x, x < maxAssign → minAssign < x →
      BinaryForm x ≠ 0 ∧ IsBinaryOp x = false) := by
  constructor
  · intro x hx
    have h1 : (decide (minOp ≤ x) && decide (x ≤ maxOp)) = false := by
      by_cases h : minOp ≤ x
      · have h2 : ¬ x ≤ maxOp := fun hle => hx ⟨h, hle⟩
        simp [h2]
      · simp [h]
    exact ⟨by rw [IsUnaryOp, h1, Bool.false_and],
           by rw [IsBinaryOp, h1, Bool.false_and],
           by rw [IsAssociativeOp, h1, Bool.false_and]⟩
  · decide

/-- Witness for C10's amended statement: `+=` (0x11) has the X-binary-plus
form but is not classified as a binary operator, and the keyword ID 0x80 is
classified as none of the three operator kinds. -/
theorem c10_assign_ops_not_binary_witness :
    (BinaryForm IDPlusEq ≠ 0 ∧ IsBinaryOp IDPlusEq = false) ∧
      IsUnaryOp 0x80 = false :=
  ⟨c10_assign_ops_not_binary.2 IDPlusEq (by decide) (by decide),
   (c10_assign_ops_not_binary.1 0x80 (by decide)).1⟩

/-! ## Suffix lexer table (src/lang/token/list.go, lines 789-857)

`lexers` lexes ambiguous 1-byte squiggles.  The order of the entries matters:
the first match wins, so longer suffixes come earlier.  Suffix strings are
embedded as `List Char`. -/

def lexers (b : Nat) : List (List Char × Nat) :=
  if b = '.'.toNat then
    [(['.'], IDDotDot), ([], IDDot)]
  else if b = '!'.toNat then
    [(['='], IDNotEq), ([], IDExclam)]
  else if b = '&'.toNat then
    [(['='], IDAmpEq), ([], IDAmp)]
  else if b = '|'.toNat then
    [(['='], IDPipeEq), ([], IDPipe)]
  else if b = '^'.toNat then
    [(['='], IDHatEq), ([], IDHat)]
  else if b = '+'.toNat then
    [(['='], IDPlusEq), ([], IDPlus)]
  else if b = '-'.toNat then
    [(['='], IDMinusEq), ([], IDMinus)]
  else if b = '*'.toNat then
    [(['='], IDStarEq), ([], IDStar)]
  else if b = '/'.toNat then
    [(['='], IDSlashEq), ([], IDSlash)]
  else if b = '%'.toNat then
    [(['='], IDPercentEq), ([], IDPercent)]
  else if b = '='.toNat then
    [(['='], IDEqEq), ([':'], IDEqColon), ([], IDEq)]
  else if b = '<'.toNat then
    [(['<', '='], IDShiftLEq), (['<'], IDShiftL), (['='], IDLessEq),
     ([], IDLessThan)]
  else if b = '>'.toNat then
    [(['>', '='], IDShiftREq), (['>'], IDShiftR), (['='], IDGreaterEq),
     ([], IDGreaterThan)]
  else if b = '~'.toNat then
    [(['m', 'o', 'd', '+', '='], IDTildeModPlusEq),
     (['m', 'o', 'd', '+'], IDTildeModPlus),
     (['m', 'o', 'd', '-', '='], IDTildeModMinusEq),
     (['m', 'o', 'd', '-'], IDTildeModMinus),
     (['s', 'a', 't', '+', '='], IDTildeSatPlusEq),
     (['s', 'a', 't', '+'], IDTildeSatPlus),
     (['s', 'a', 't', '-', '='], IDTildeSatMinusEq),
     (['s', 'a', 't', '-'], IDTildeSatMinus)]
  else []

/-- Modelled from the spec: the tokenizer driver that consumes a squiggly
token is not under src/ (only the `lexers` table is).  Per the spec, the
lexer picks the first entry of `lexers[first_byte]` whose suffix is a prefix
of the remaining input, producing that entry's ID and consuming the first
byte plus the suffix. -/
def lexSquiggle : List Char → Option (Nat × Nat)
  | [] => none
  | c :: rest =>
    match (lexers c.toNat).find? (fun e => e.1.isPrefixOf rest) with
    | some e => some (e.2, 1 + e.1.length)
    | none => none

/-- C4 as stated is false: the suffix-lexer list for the byte `~` (0x7E) is
non-empty but its last entry has the non-empty suffix "sat-", so `~` has no
fallback single-character token. -/
theorem c4_counterexample :
    lexers '~'.toNat ≠ [] ∧ ((lexers '~'.toNat).getLastD ([], 0)).1 ≠ [] := by
  decide

set_option maxRecDepth 4096 in
/-- C4, amended: for every starting byte other than `~` (0x7E) whose
suffix-lexer list is non-empty, the last entry of that list has the empty
suffix (the fallback single-character token); and the greedy first-match
lexer maps "<<=" to IDShiftLEq, "<<" to IDShiftL, "<=" to IDLessEq, "<" to
IDLessThan, "~sat+=" to IDTildeSatPlusEq and "~mod-" to IDTildeModMinus,
consuming exactly the expected byte count. -/
theorem c4_lexer_greedy :
    (∀ b, b < 256 → b ≠ '~'.toNat → lexers b ≠ [] →
      ((lexers b).getLastD ([], 0)).1 = []) ∧
    lexSquiggle ['<', '<', '='] = some (IDShiftLEq, 3) ∧
    lexSquiggle ['<', '<'] = some (IDShiftL, 2) ∧
    lexSquiggle ['<', '='] = some (IDLessEq, 2) ∧
    lexSquiggle ['<'] = some (IDLessThan, 1) ∧
    lexSquiggle ['~', 's', 'a', 't', '+', '='] = some (IDTildeSatPlusEq, 6) ∧
    lexSquiggle ['~', 'm', 'o', 'd', '-'] = some (IDTildeModMinus, 5) := by
  refine ⟨by decide, by decide, by decide, by decide, by decide, by decide,
    by decide⟩

/-- Witness for C4's amended statement at the byte `<`: its list is non-empty
and ends in the empty suffix. -/
theorem c4_lexer_greedy_witness :
    lexers '<'.toNat ≠ [] ∧ ((lexers '<'.toNat).getLastD ([], 0)).1 = [] :=
  ⟨by decide, c4_lexer_greedy.1 '<'.toNat (by decide) (by decide) (by decide)⟩

/-! ## AST nodes and equality (src/unnamed/part_000, package ast)

The Go `Node` is a single struct; `Expr` and `TypeExpr` are type-casts of
it, so `Expr.Eq` and `TypeExpr.eq` read the same underlying fields (`flags`,
`constValue`, `id0/id1/id2`, `lhs/mhs/rhs`, `list0`).  `nilN` stands for the
nil pointer, and the pointer-identity fast path `n == o` is subsumed by
structural equality (reflexivity is proved below).  The
`flagsThatMatterForEq` mask is defined in an ast file outside src/, so the
equality functions are parametric in the mask `M`; every theorem holds for
all `M`. -/

inductive ANode where
  | nilN : ANode
  | mk (flags : Nat) (constValue : Option Int) (id0 id1 id2 : Nat)
      (lhs mhs rhs : ANode) (list0 : List ANode) : ANode

mutual

/-- `Expr.Eq` (part_000 lines 27-66). -/
def exprEq (M : Nat) : ANode → ANode → Bool
  | .nilN, .nilN => true
  | .nilN, .mk _ _ _ _ _ _ _ _ _ => false
  | .mk _ _ _ _ _ _ _ _ _, .nilN => false
  | .mk f1 c1 a1 b1 d1 l1 m1 r1 xs1, .mk f2 c2 a2 b2 d2 l2 m2 r2 xs2 =>
    match c1, c2 with
    | some v1, some v2 => v1 == v2
    | _, _ =>
      ((f1 &&& M) == (f2 &&& M)) && (a1 == a2) && (b1 == b2) && (d1 == d2) &&
      exprEq M l1 l2 && exprEq M m1 m2 &&
      (if a1 == IDXBinaryAs then typeExprEq M false r1 r2
       else exprEq M r1 r2) &&
      exprEqList M xs1 xs2

/-- The `len(n.list0) != len(o.list0)` check plus the element loop of
`Expr.Eq`. -/
def exprEqList (M : Nat) : List ANode → List ANode → Bool
  | [], [] => true
  | [], _ :: _ => false
  | _ :: _, [] => false
  | x :: xs, y :: ys => exprEq M x y && exprEqList M xs ys

/-- `TypeExpr.eq` (part_000 lines 97-119).  `IsArrayType` is modelled from
the spec as "the decorator (`id0`) is the `array` ID"; its definition lives
in an ast file outside src/. -/
def typeExprEq (M : Nat) (ign : Bool) : ANode → ANode → Bool
  | .nilN, .nilN => true
  | .nilN, .mk _ _ _ _ _ _ _ _ _ => false
  | .mk _ _ _ _ _ _ _ _ _, .nilN => false
  | .mk _ _ a1 b1 d1 l1 m1 r1 _, .mk _ _ a2 b2 d2 l2 m2 r2 _ =>
    (a1 == a2) && (b1 == b2) && (d1 == d2) &&
    (if a1 == IDArray || !ign then exprEq M l1 l2 && exprEq M m1 m2
     else true) &&
    typeExprEq M ign r1 r2

end

/-- `TypeExpr.Eq` (part_000 lines 87-89). -/
def TypeExprEq (M : Nat) (n o : ANode) : Bool := typeExprEq M false n o

/-- `TypeExpr.EqIgnoringRefinements` (part_000 lines 93-95). -/
def EqIgnoringRefinements (M : Nat) (n o : ANode) : Bool :=
  typeExprEq M true n o

mutual

/-- `Expr.Eq` is reflexive. -/
theorem exprEq_refl (M : Nat) : (e : ANode) → exprEq M e e = true
  | .nilN => by simp [exprEq]
  | .mk f c a b d l m r xs => by
    cases c with
    | some v => simp [exprEq]
    | none =>
      have hl := exprEq_refl M l
      have hm := exprEq_refl M m
      have hxs := exprEqList_refl M xs
      by_cases ha : (a == IDXBinaryAs) = true
      · have hr := typeExprEq_refl M false r
        simp [exprEq, ha, hl, hm, hxs, hr]
      · have hr := exprEq_refl M r
        simp [exprEq, Bool.eq_false_iff.mpr ha, hl, hm, hxs, hr]

theorem exprEqList_refl (M : Nat) : (l : List ANode) → exprEqList M l l = true
  | [] => by simp [exprEqList]
  | x :: xs => by
    have hx := exprEq_refl M x
    have hxs := exprEqList_refl M xs
    simp [exprEqList, hx, hxs]

theorem typeExprEq_refl (M : Nat) (ign : Bool) :
    (e : ANode) → typeExprEq M ign e e = true
  | .nilN => by simp [typeExprEq]
  | .mk f c a b d l m r xs => by
    have hl := exprEq_refl M l
    have hm := exprEq_refl M m
    have hr := typeExprEq_refl M ign r
    by_cases ha : (a == IDArray || !ign) = true
    · simp [typeExprEq, ha, hl, hm, hr]
    · simp [typeExprEq, Bool.eq_false_iff.mpr ha, hr]

end

/-- C5 as stated is false: two expressions that both carry the constant
value 5 but differ in `id0` (here X-binary-plus versus 0) compare equal,
because the constant-value shortcut runs before the operand comparison.  The
claim demands `Eq = false` whenever `id0` differs. -/
theorem c5_counterexample :
    exprEq 0
        (.mk 0 (some 5) IDXBinaryPlus 0 0 .nilN .nilN .nilN [])
        (.mk 0 (some 5) 0 0 0 .nilN .nilN .nilN []) = true ∧
      IDXBinaryPlus ≠ 0 := by
  constructor
  · simp [exprEq]
  · decide

/-- C5, amended: `Expr.Eq` is reflexive; two non-nil expressions that differ
in `id0` and do not both carry constant values compare unequal; and two
expressions that both carry constant values compare equal exactly when the
values are numerically equal, regardless of syntactic shape.  All parts hold
for every value `M` of the `flagsThatMatterForEq` mask. -/
theorem c5_expr_eq (M : Nat) :
    (∀ e, exprEq M e e = true) ∧
    (∀ f1 c1 a1 b1 d1 l1 m1 r1 xs1 f2 c2 a2 b2 d2 l2 m2 r2 xs2,
      a1 ≠ a2 → ¬(c1.isSome ∧ c2.isSome) →
      exprEq M (.mk f1 c1 a1 b1 d1 l1 m1 r1 xs1)
        (.mk f2 c2 a2 b2 d2 l2 m2 r2 xs2) = false) ∧
    (∀ f1 v1 a1 b1 d1 l1 m1 r1 xs1 f2 v2 a2 b2 d2 l2 m2 r2 xs2,
      (exprEq M (.mk f1 (some v1) a1 b1 d1 l1 m1 r1 xs1)
        (.mk f2 (some v2) a2 b2 d2 l2 m2 r2 xs2) = true) ↔ v1 = v2) := by
  refine ⟨exprEq_refl M, ?_, ?_⟩
  · intro f1 c1 a1 b1 d1 l1 m1 r1 xs1 f2 c2 a2 b2 d2 l2 m2 r2 xs2 ha hc
    have ha' : (a1 == a2) = false := by simp [ha]
    cases c1 with
    | some v1 =>
      cases c2 with
      | some v2 => exact absurd ⟨rfl, rfl⟩ hc
      | none => simp [exprEq, ha']
    | none => cases c2 <;> simp [exprEq, ha']
  · intro f1 v1 a1 b1 d1 l1 m1 r1 xs1 f2 v2 a2 b2 d2 l2 m2 r2 xs2
    simp [exprEq]

/-- Witness for C5's amended statement: a `+` node and a `-` node without
constant values compare unequal, and two constant nodes with values 7 and 7
compare equal. -/
theorem c5_expr_eq_witness :
    (exprEq 0 (.mk 0 none IDXBinaryPlus 0 0 .nilN .nilN .nilN [])
      (.mk 0 none IDXBinaryMinus 0 0 .nilN .nilN .nilN []) = false) ∧
    ((exprEq 0 (.mk 0 (some 7) 0 0 0 .nilN .nilN .nilN [])
      (.mk 0 (some 7) 0 0 0 .nilN .nilN .nilN []) = true) ↔ (7 : Int) = 7) :=
  ⟨(c5_expr_eq 0).2.1 0 none IDXBinaryPlus 0 0 .nilN .nilN .nilN [] 0 none
      IDXBinaryMinus 0 0 .nilN .nilN .nilN [] (by decide) (by simp),
   (c5_expr_eq 0).2.2 0 7 0 0 0 .nilN .nilN .nilN [] 0 7 0 0 0 .nilN .nilN
      .nilN []⟩

/-- Full type-expression equality implies refinement-ignoring equality: the
`ign = true` run performs a subset of the `ign = false` run's checks. -/
theorem typeExprEq_mono (M : Nat) :
    (n o : ANode) → typeExprEq M false n o = true → typeExprEq M true n o = true
  | .nilN, .nilN, _ => by simp [typeExprEq]
  | .nilN, .mk _ _ _ _ _ _ _ _ _, h => by simp [typeExprEq] at h
  | .mk _ _ _ _ _ _ _ _ _, .nilN, h => by simp [typeExprEq] at h
  | .mk f c a b d l m r xs, .mk f' c' a' b' d' l' m' r' xs', h => by
    have hrec := typeExprEq_mono M r r'
    cases hc : (a == IDArray) with
    | true =>
      simp only [typeExprEq, hc, Bool.false_or, Bool.true_or, Bool.not_false,
        Bool.not_true, Bool.or_true, Bool.or_false, if_true, if_false,
        Bool.and_eq_true, and_true] at h ⊢
      exact ⟨h.1, hrec h.2⟩
    | false =>
      simp only [typeExprEq, hc, Bool.false_or, Bool.true_or, Bool.not_false,
        Bool.not_true, Bool.or_true, Bool.or_false, if_true, if_false,
        Bool.and_eq_true, and_true] at h ⊢
      exact ⟨⟨h.1.1, by simp⟩, hrec h.2⟩

/-- C7: `EqIgnoringRefinements` compares the decorator IDs (`id0/id1/id2`)
at every level of the decorator chain; on levels whose decorator is `array`
it also compares the length operands (`lhs`/`mhs`), while on non-array
levels it ignores the refinement-bound operands entirely; and `TypeExpr.Eq`
implies `EqIgnoringRefinements`. -/
theorem c7_eq_ignoring_refinements (M : Nat) :
    (∀ n o, TypeExprEq M n o = true → EqIgnoringRefinements M n o = true) ∧
    (∀ f c i0 i1 i2 l m r xs f' c' l' m' r' xs', i0 ≠ IDArray →
      EqIgnoringRefinements M (.mk f c i0 i1 i2 l m r xs)
          (.mk f' c' i0 i1 i2 l' m' r' xs') =
        EqIgnoringRefinements M r r') ∧
    (∀ f c i1 i2 l m r xs f' c' l' m' r' xs',
      EqIgnoringRefinements M (.mk f c IDArray i1 i2 l m r xs)
          (.mk f' c' IDArray i1 i2 l' m' r' xs') =
        (exprEq M l l' && (exprEq M m m' && EqIgnoringRefinements M r r'))) ∧
    (∀ f c i0 i1 i2 l m r xs f' c' j0 j1 j2 l' m' r' xs',
      ¬(i0 = j0 ∧ i1 = j1 ∧ i2 = j2) →
      EqIgnoringRefinements M (.mk f c i0 i1 i2 l m r xs)
          (.mk f' c' j0 j1 j2 l' m' r' xs') = false) := by
  refine ⟨?_, ?_, ?_, ?_⟩
  · intro n o h
    exact typeExprEq_mono M n o h
  · intro f c i0 i1 i2 l m r xs f' c' l' m' r' xs' h0
    have h0' : (i0 == IDArray) = false := by simp [h0]
    simp [EqIgnoringRefinements, typeExprEq, h0']
  · intro f c i1 i2 l m r xs f' c' l' m' r' xs'
    simp [EqIgnoringRefinements, typeExprEq, Bool.and_assoc]
  · intro f c i0 i1 i2 l m r xs f' c' j0 j1 j2 l' m' r' xs' h
    by_cases h0 : i0 = j0
    · by_cases h1 : i1 = j1
      · have h2 : i2 ≠ j2 := fun h2 => h ⟨h0, h1, h2⟩
        simp [EqIgnoringRefinements, typeExprEq, h2]
      · simp [EqIgnoringRefinements, typeExprEq, h1]
    · simp [EqIgnoringRefinements, typeExprEq, h0]

/-- Witness for C7 at concrete inputs: a two-level chain
`ptr u32[lo:hi]` versus `ptr u32[lo2:hi2]` — full equality on identical
chains implies refinement-ignoring equality, and differing refinements on
the non-array `ptr` level do not affect `EqIgnoringRefinements`. -/
theorem c7_eq_ignoring_refinements_witness :
    (EqIgnoringRefinements 0
        (.mk 0 none IDPtr 0 0 .nilN .nilN
          (.mk 0 none IDU32 0 0 .nilN .nilN .nilN []) [])
        (.mk 0 none IDPtr 0 0 .nilN .nilN
          (.mk 0 none IDU32 0 0 .nilN .nilN .nilN []) []) = true) ∧
    (EqIgnoringRefinements 0
        (.mk 0 none IDU32 0 0 (.mk 0 (some 1) 0 0 0 .nilN .nilN .nilN [])
          .nilN .nilN [])
        (.mk 0 none IDU32 0 0 (.mk 0 (some 2) 0 0 0 .nilN .nilN .nilN [])
          .nilN .nilN []) =
      EqIgnoringRefinements 0 ANode.nilN ANode.nilN) :=
  ⟨(c7_eq_ignoring_refinements 0).1 _ _ (typeExprEq_refl 0 false _),
   (c7_eq_ignoring_refinements 0).2.1 0 none IDU32 0 0
      (.mk 0 (some 1) 0 0 0 .nilN .nilN .nilN []) .nilN .nilN [] 0 none
      (.mk 0 (some 2) 0 0 0 .nilN .nilN .nilN []) .nilN .nilN [] (by decide)⟩

/-! ## Coroutine lowering (src/cmd/wuffs-c/internal/cgen/statement.go)

The generator appends C text to a buffer; we record the abstract shape of
each emitted fragment as a `CItem`.  The built-in intrinsic writer
(`writeBuiltinCallSuspendibles`) lives outside the lines under study and is
abstracted as a single `builtinCall` item; the claims below concern the
user-defined-call path, which returns before reaching it exactly when the
callee is not a built-in.  `a.MaxExprDepth` and `maxTemp` are package
constants defined outside src/, so they are parameters here. -/

/-- The slice of the per-function `funk` state that expression lowering
reads and writes: the coroutine suspension-point counter and the temporary
write counter (src/unnamed/part_003 lines 25-45). -/
structure Funk where
  coroSuspPoint : Nat
  tempW : Nat
deriving DecidableEq

/-- One emitted code fragment. -/
inductive CItem where
  | suspPoint (num : Nat) (maybeSuspend : Bool)
  | saveDerived (callee : String)
  | builtinCall (callee : String)
  | statusAssign (callee : String)
  | tempAssign (temp : Nat) (callee : String)
  | loadDerived (callee : String)
  | gotoSuspend
deriving DecidableEq

/-- An expression as the generator sees it: operator ID, the checker's
`Suspendible` / `CallSuspendible` / `ProvenNotToSuspend` predicates, whether
the callee is a built-in intrinsic, the expression-kind sub-nodes
(LHS/MHS/RHS) and the argument list, and the callee name. -/
inductive GExpr where
  | mk (op : Nat) (susp callSusp provenNot isBuiltin : Bool)
      (subs : List GExpr) (args : List GExpr) (callee : String)

def GExpr.op : GExpr → Nat
  | .mk o _ _ _ _ _ _ _ => o

def GExpr.susp : GExpr → Bool
  | .mk _ s _ _ _ _ _ _ => s

mutual

/-- `mightActuallySuspend` (statement.go lines 509-539).  `.ok true` stands
for the Go function returning the `errMightActuallySuspend` sentinel,
`.ok false` for returning nil, and `.error` for a real error; a sentinel
from a child is returned immediately, like the Go early `return err`. -/
def mightActuallySuspend (maxExprDepth : Nat) :
    GExpr → Nat → Except String Bool
  | n, depth =>
    if depth > maxExprDepth then
      .error "expression recursion depth too large"
    else
      match n with
      | .mk _ _ cs pn _ subs args _ =>
        if !cs then
          match mightActuallySuspendList maxExprDepth subs (depth + 1) with
          | .error e => .error e
          | .ok true => .ok true
          | .ok false => mightActuallySuspendList maxExprDepth args (depth + 1)
        else if pn then .ok false
        else .ok true

/-- The sub-node / argument loops of `mightActuallySuspend`. -/
def mightActuallySuspendList (maxExprDepth : Nat) :
    List GExpr → Nat → Except String Bool
  | [], _ => .ok false
  | x :: xs, depth =>
    match mightActuallySuspend maxExprDepth x depth with
    | .error e => .error e
    | .ok true => .ok true
    | .ok false => mightActuallySuspendList maxExprDepth xs depth

end

def maxCoroSuspPoint : Nat := 0xFFFFFFFF

/-- `writeCoroSuspPoint` (statement.go lines 470-483): increments the
suspension-point counter, errors when it reaches the cap, and emits the
numbered suspension-point macro. -/
def writeCoroSuspPoint (maybeSuspend : Bool) (k : Funk) :
    Except String (List CItem × Funk) :=
  let k' : Funk := { k with coroSuspPoint := k.coroSuspPoint + 1 }
  if k'.coroSuspPoint = maxCoroSuspPoint then
    .error "too many coroutine suspension points required"
  else
    .ok ([.suspPoint k'.coroSuspPoint maybeSuspend], k')

mutual

/-- `writeCallSuspendibles` (statement.go lines 541-600). -/
def writeCallSuspendibles (maxExprDepth maxTemp : Nat) :
    GExpr → Nat → Funk → Except String (List CItem × Funk)
  | n, depth, k =>
    if depth > maxExprDepth then
      .error "expression recursion depth too large"
    else
      match n with
      | .mk op _ cs _ ib subs args callee =>
        if !cs then
          match writeCallSuspendiblesList maxExprDepth maxTemp subs
              (depth + 1) k with
          | .error e => .error e
          | .ok (out1, k1) =>
            match writeCallSuspendiblesList maxExprDepth maxTemp args
                (depth + 1) k1 with
            | .error e => .error e
            | .ok (out2, k2) => .ok (out1 ++ out2, k2)
        else if ib then
          .ok ([.saveDerived callee, .builtinCall callee], k)
        else if op == IDTry then
          if k.tempW > maxTemp then
            .error "too many temporary variables required"
          else
            .ok ([.saveDerived callee, .tempAssign k.tempW callee,
                  .loadDerived callee],
              { k with tempW := k.tempW + 1 })
        else
          .ok ([.saveDerived callee, .statusAssign callee,
                .loadDerived callee, .gotoSuspend], k)

/-- The sub-node / argument loops of `writeCallSuspendibles`. -/
def writeCallSuspendiblesList (maxExprDepth maxTemp : Nat) :
    List GExpr → Nat → Funk → Except String (List CItem × Funk)
  | [], _, k => .ok ([], k)
  | x :: xs, depth, k =>
    match writeCallSuspendibles maxExprDepth maxTemp x depth k with
    | .error e => .error e
    | .ok (out1, k1) =>
      match writeCallSuspendiblesList maxExprDepth maxTemp xs depth k1 with
      | .error e => .error e
      | .ok (out2, k2) => .ok (out1 ++ out2, k2)

end

/-- `writeSuspendibles` (statement.go lines 485-500): nothing for a
non-suspendible expression; otherwise a numbered suspension point is emitted
before the calls' code exactly when `mightActuallySuspend` reported the
sentinel and the expression's operator is not `try`. -/
def writeSuspendibles (maxExprDepth maxTemp : Nat) (n : GExpr) (depth : Nat)
    (k : Funk) : Except String (List CItem × Funk) :=
  if !n.susp then .ok ([], k)
  else
    match mightActuallySuspend maxExprDepth n depth with
    | .error e => .error e
    | .ok mas =>
      if mas && !(n.op == IDTry) then
        match writeCoroSuspPoint false k with
        | .error e => .error e
        | .ok (out0, k0) =>
          match writeCallSuspendibles maxExprDepth maxTemp n depth k0 with
          | .error e => .error e
          | .ok (out1, k1) => .ok (out0 ++ out1, k1)
      else
        writeCallSuspendibles maxExprDepth maxTemp n depth k

/-- C1 as stated is false for calls wrapped in `try`: this user-defined
suspendible call has operator `try` and is not proven not to suspend
(`mightActuallySuspend` reports the sentinel), yet `writeSuspendibles` emits
its code with no suspension point before it — the `n.Operator() != t.IDTry`
guard skips the emission. -/
theorem c1_counterexample :
    mightActuallySuspend 255 (.mk IDTry true true false false [] [] "d") 0 =
        .ok true ∧
      writeSuspendibles 255 255 (.mk IDTry true true false false [] [] "d") 0
          ⟨0, 0⟩ =
        .ok ([.saveDerived "d", .tempAssign 0 "d", .loadDerived "d"],
          ⟨0, 1⟩) := by
  constructor
  · simp [mightActuallySuspend]
  · simp [writeSuspendibles, mightActuallySuspend, writeCallSuspendibles,
      GExpr.susp, GExpr.op]

/-- C1, amended: for a suspendible expression that the static analyzer has
not proven unable to suspend, `writeSuspendibles` emits exactly one numbered
suspension point immediately before the expression's lowered code — unless
the expression's operator is `try`, in which case no suspension point is
emitted and the output is exactly that of `writeCallSuspendibles`. -/
theorem c1_susp_point_before_call (maxD maxT : Nat) (n : GExpr)
    (depth : Nat) (k : Funk) (out : List CItem) (k' : Funk)
    (hs : n.susp = true)
    (hm : mightActuallySuspend maxD n depth = .ok true) :
    (n.op ≠ IDTry → k.coroSuspPoint + 1 ≠ maxCoroSuspPoint →
      writeCallSuspendibles maxD maxT n depth
          { k with coroSuspPoint := k.coroSuspPoint + 1 } = .ok (out, k') →
      writeSuspendibles maxD maxT n depth k =
        .ok (.suspPoint (k.coroSuspPoint + 1) false :: out, k')) ∧
    (n.op = IDTry →
      writeSuspendibles maxD maxT n depth k =
        writeCallSuspendibles maxD maxT n depth k) := by
  constructor
  · intro hop hcap hcall
    have hop' : (n.op == IDTry) = false := by simp [hop]
    simp [writeSuspendibles, hs, hm, hop', writeCoroSuspPoint, hcap, hcall]
  · intro hop
    simp [writeSuspendibles, hs, hm, hop]

/-- Witness for C1's amended statement: a user-defined suspendible call with
a non-`try` operator gets suspension point number 1 emitted immediately
before its call code. -/
theorem c1_susp_point_before_call_witness :
    writeSuspendibles 255 255 (.mk 0 true true false false [] [] "f") 0
        ⟨0, 0⟩ =
      .ok ([.suspPoint 1 false, .saveDerived "f", .statusAssign "f",
        .loadDerived "f", .gotoSuspend], ⟨1, 0⟩) :=
  (c1_susp_point_before_call 255 255 (.mk 0 true true false false [] [] "f")
      0 ⟨0, 0⟩ [.saveDerived "f", .statusAssign "f", .loadDerived "f",
        .gotoSuspend] ⟨1, 0⟩ (by simp [GExpr.susp])
      (by simp [mightActuallySuspend])).1
    (by decide) (by decide)
    (by simp [writeCallSuspendibles, IDTry])

/-- C2: lowering a user-defined suspendible call (`CallSuspendible`, not a
built-in) outside `try` emits `status = <callee>(…)`, reloads the derived
I/O variables, and then emits `if (status) { goto suspend; }`, leaving the
temporary counter unchanged; with operator `try` it allocates the fresh
temporary `t<tempW>`, increments `tempW`, assigns the callee's status to the
temporary, reloads the derived I/O variables, and emits no branch on
status. -/
theorem c2_user_defined_call (maxD maxT : Nat) (op : Nat) (sp pn : Bool)
    (subs args : List GExpr) (callee : String) (depth : Nat) (k : Funk)
    (hd : ¬ depth > maxD) :
    (op ≠ IDTry →
      writeCallSuspendibles maxD maxT (.mk op sp true pn false subs args
          callee) depth k =
        .ok ([.saveDerived callee, .statusAssign callee, .loadDerived callee,
          .gotoSuspend], k)) ∧
    (op = IDTry → ¬ k.tempW > maxT →
      writeCallSuspendibles maxD maxT (.mk op sp true pn false subs args
          callee) depth k =
        .ok ([.saveDerived callee, .tempAssign k.tempW callee,
          .loadDerived callee], { k with tempW := k.tempW + 1 })) := by
  constructor
  · intro hop
    have hop' : (op == IDTry) = false := by simp [hop]
    simp [writeCallSuspendibles, hd, hop']
  · intro hop htemp
    simp [writeCallSuspendibles, hd, hop, htemp]

/-- Witness for C2: a non-`try` call branches on status without consuming a
temporary; a `try` call consumes temporary `t0` and does not branch. -/
theorem c2_user_defined_call_witness :
    writeCallSuspendibles 255 255 (.mk 0 true true false false [] [] "g") 0
        ⟨0, 0⟩ =
      .ok ([.saveDerived "g", .statusAssign "g", .loadDerived "g",
        .gotoSuspend], ⟨0, 0⟩) ∧
    writeCallSuspendibles 255 255 (.mk IDTry true true false false [] [] "g")
        0 ⟨0, 0⟩ =
      .ok ([.saveDerived "g", .tempAssign 0 "g", .loadDerived "g"],
        ⟨0, 1⟩) :=
  ⟨(c2_user_defined_call 255 255 0 true false [] [] "g" 0 ⟨0, 0⟩
      (by decide)).1 (by decide),
   (c2_user_defined_call 255 255 IDTry true false [] [] "g" 0 ⟨0, 0⟩
      (by decide)).2 rfl (by decide)⟩

/-! ## Return statements and jump targets -/

/-- The non-suspendible arm of `writeStatementRet` (statement.go lines
361-373).  The return expression, when present, is abstracted by its
already-lowered C text (`writeExpr` lives outside the lines under study);
`nOut` is `len(g.currFunk.astFunc.Out().Fields())`. -/
def writeStatementRetNonSusp (retExpr : Option String) (nOut : Nat) :
    Except String String :=
  if nOut = 0 then
    match retExpr with
    | some _ => .error "return expression incompatible with empty return type"
    | none => .ok "return ;"
  else
    match retExpr with
    | none =>
      .error "empty return expression incompatible with non-empty return type"
    | some s => .ok ("return " ++ s ++ ";")

/-- C8: lowering `return` in a non-suspendible function errors exactly when
the return expression is present but the out-field list is empty, or the
expression is absent but the out-field list is non-empty; otherwise it emits
`return <expr>;` (or the bare `return ;`). -/
theorem c8_ret_non_suspendible (retExpr : Option String) (nOut : Nat) :
    ((∃ e, writeStatementRetNonSusp retExpr nOut = .error e) ↔
      ((retExpr.isSome ∧ nOut = 0) ∨ (retExpr = none ∧ nOut ≠ 0))) ∧
    (nOut = 0 → retExpr = none →
      writeStatementRetNonSusp retExpr nOut = .ok "return ;") ∧
    (∀ s, nOut ≠ 0 → retExpr = some s →
      writeStatementRetNonSusp retExpr nOut = .ok ("return " ++ s ++ ";")) := by
  refine ⟨?_, ?_, ?_⟩
  · cases retExpr with
    | none =>
      by_cases h : nOut = 0 <;> simp [writeStatementRetNonSusp, h]
    | some s =>
      by_cases h : nOut = 0 <;> simp [writeStatementRetNonSusp, h]
  · rintro h rfl
    simp [writeStatementRetNonSusp, h]
  · rintro s h rfl
    simp [writeStatementRetNonSusp, h]

/-- Witness for C8: with one out-field, `return x` lowers to `return x;`,
and with no out-fields a bare return lowers to `return ;`. -/
theorem c8_ret_non_suspendible_witness :
    writeStatementRetNonSusp (some "x") 1 = .ok "return x;" ∧
      writeStatementRetNonSusp none 0 = .ok "return ;" :=
  ⟨(c8_ret_non_suspendible (some "x") 1).2.2 "x" (by decide) rfl,
   (c8_ret_non_suspendible none 0).2.1 rfl rfl⟩

/-- `funk.jumpTarget` (src/unnamed/part_003 lines 47-60).  The
`jumpTargets` map from loop nodes to numbers is modelled as an association
list keyed by loop-node identity; Go's `len(k.jumpTargets)` is the list
length, and the nil-map initialization is the empty list. -/
def jumpTarget (m : List (Nat × Nat)) (n : Nat) :
    Except String (Nat × List (Nat × Nat)) :=
  match m.lookup n with
  | some jt => .ok (jt, m)
  | none =>
    let jt := m.length
    if jt = 1000000 then .error "too many jump targets"
    else .ok (jt, (n, jt) :: m)

/-- C9: jump-target allocation is lazy and stable — a loop node already in
the map gets the same number back with no error and no state change; a new
loop node gets the next consecutive number (the current map size, hence 0
first); and allocation fails exactly when 1,000,000 distinct targets
already exist. -/
theorem c9_jump_targets (m : List (Nat × Nat)) (n : Nat) :
    (∀ jt, m.lookup n = some jt → jumpTarget m n = .ok (jt, m)) ∧
    (m.lookup n = none → m.length ≠ 1000000 →
      jumpTarget m n = .ok (m.length, (n, m.length) :: m)) ∧
    (m.lookup n = none →
      ((∃ e, jumpTarget m n = .error e) ↔ m.length = 1000000)) := by
  refine ⟨?_, ?_, ?_⟩
  · intro jt h
    simp [jumpTarget, h]
  · intro h hlen
    simp [jumpTarget, h, hlen]
  · intro h
    by_cases hlen : m.length = 1000000 <;> simp [jumpTarget, h, hlen]

/-- Witness for C9: the first allocation in a fresh function gets number 0,
and re-requesting an allocated loop node returns its number unchanged. -/
theorem c9_jump_targets_witness :
    jumpTarget [] 7 = .ok (0, [(7, 0)]) ∧
      jumpTarget [(7, 0)] 7 = .ok (0, [(7, 0)]) :=
  ⟨(c9_jump_targets [] 7).2.1 rfl (by decide),
   (c9_jump_targets [(7, 0)] 7).1 0 rfl⟩

/-! ## Public-function argument checks (src/unnamed/part_003, lines 331-415) -/

/-- A single argument-validity check: `!a_<name>` for pointer-typed
arguments, or a failing-range comparison `a_<name> < v` / `a_<name> > v`
for refined numeric arguments. -/
inductive ArgCheck where
  | notNull (name : String)
  | boundLo (name : String) (v : Int)
  | boundHi (name : String) (v : Int)
deriving DecidableEq

/-- An in-field as `writeFuncImplArgChecks` sees it: its name, its type's
decorator (`XType().Decorator()`), the type's qualified ID, and the two
refinement bounds of `oTyp.Bounds()`, each carried as
`some (bound.ConstValue())` when the bound expression is present. -/
structure CField where
  name : String
  dec : Nat
  qid0 : Nat
  qid1 : Nat
  loB : Option (Option Int)
  hiB : Option (Option Int)
deriving DecidableEq

/-- Modelled from the spec: `TypeExpr.IsRefined` is defined in an ast file
outside src/; per the spec a numeric type is refined when it carries
refinement bounds. -/
def CField.IsRefined (f : CField) : Bool := f.loB.isSome || f.hiB.isSome

def numTypeBoundsLen : Nat := IDU64 + 1

/-- `numTypeBounds` (part_003 lines 405-415): the natural bounds of each
base numeric type, keyed by base-type ID; `(none, none)` for IDs without an
entry.  The Go array has length `IDU64 + 1` = 0x128. -/
def numTypeBounds (key : Nat) : Option Int × Option Int :=
  if key = IDI8 then (some (-(2 ^ 7)), some (2 ^ 7 - 1))
  else if key = IDI16 then (some (-(2 ^ 15)), some (2 ^ 15 - 1))
  else if key = IDI32 then (some (-(2 ^ 31)), some (2 ^ 31 - 1))
  else if key = IDI64 then (some (-(2 ^ 63)), some (2 ^ 63 - 1))
  else if key = IDU8 then (some 0, some (2 ^ 8 - 1))
  else if key = IDU16 then (some 0, some (2 ^ 16 - 1))
  else if key = IDU32 then (some 0, some (2 ^ 32 - 1))
  else if key = IDU64 then (some 0, some (2 ^ 64 - 1))
  else if key = IDBool then (some 0, some 1)
  else (none, none)

/-- The elision step inside `writeFuncImplArgChecks` (part_003 lines
355-365): a collected constant bound is dropped when the natural-bound
table has an entry equal to it. -/
def elideBound (b nb : Option Int) : Option Int :=
  match b, nb with
  | some x, some y => if x = y then none else some x
  | _, _ => b

/-- The per-field loop body of `writeFuncImplArgChecks` (part_003 lines
334-376). -/
def checksOfField (f : CField) : List ArgCheck :=
  if f.dec ≠ IDPtr ∧ f.IsRefined = false then []
  else if f.dec = IDPtr then [.notNull f.name]
  else if f.IsRefined then
    let b0 := f.loB.bind id
    let b1 := f.hiB.bind id
    let b0 := if f.qid0 = IDBase ∧ f.qid1 < numTypeBoundsLen then
        elideBound b0 (numTypeBounds f.qid1).1
      else b0
    let b1 := if f.qid0 = IDBase ∧ f.qid1 < numTypeBoundsLen then
        elideBound b1 (numTypeBounds f.qid1).2
      else b1
    (match b0 with | some v => [.boundLo f.name v] | none => []) ++
    (match b1 with | some v => [.boundHi f.name v] | none => [])
  else []

/-- `writeFuncImplArgChecks` (part_003 lines 331-403): collects the checks
for all in-fields; when no checks remain, no argument-validation code is
emitted at all (`none`). -/
def writeFuncImplArgChecks (fields : List CField) : Option (List ArgCheck) :=
  let checks := (fields.map checksOfField).flatten
  if checks = [] then none else some checks

/-- The argument-check step of `writeFuncImplHeader` (part_003 lines
211-217): the runtime checks are generated only for public functions. -/
def headerArgChecks (pub : Bool) (fields : List CField) :
    Option (List ArgCheck) :=
  if pub then writeFuncImplArgChecks fields else none

/-- C6: in the generated header of a public function, every pointer-typed
argument gets a non-null check; a refined base-typed numeric argument with
constant bounds gets a lower and an upper range check except that a bound
equal to the base type's natural bound (from `numTypeBounds`) produces no
check; and no argument-validation code is emitted at all exactly when no
checks remain. -/
theorem c6_arg_checks (fields : List CField) :
    (∀ f, f ∈ fields → f.dec = IDPtr →
      ∃ cs, headerArgChecks true fields = some cs ∧
        ArgCheck.notNull f.name ∈ cs) ∧
    (∀ f lo hi, f.dec ≠ IDPtr → f.qid0 = IDBase →
      f.qid1 < numTypeBoundsLen →
      f.loB = some (some lo) → f.hiB = some (some hi) →
      checksOfField f =
        (if some lo = (numTypeBounds f.qid1).1 then []
         else [.boundLo f.name lo]) ++
        (if some hi = (numTypeBounds f.qid1).2 then []
         else [.boundHi f.name hi])) ∧
    (headerArgChecks true fields = none ↔
      (fields.map checksOfField).flatten = []) := by
  refine ⟨?_, ?_, ?_⟩
  · intro f hmem hdec
    have hf : checksOfField f = [.notNull f.name] := by
      simp [checksOfField, hdec]
    have hin : ArgCheck.notNull f.name ∈ (fields.map checksOfField).flatten :=
      List.mem_flatten.mpr
        ⟨checksOfField f, List.mem_map_of_mem checksOfField hmem,
          by simp [hf]⟩
    have hne : (fields.map checksOfField).flatten ≠ [] :=
      List.ne_nil_of_mem hin
    exact ⟨(fields.map checksOfField).flatten,
      by simp [headerArgChecks, writeFuncImplArgChecks, hne], hin⟩
  · intro f lo hi hdec hq0 hq1 hlo hhi
    have href : f.IsRefined = true := by simp [CField.IsRefined, hlo]
    simp only [checksOfField, hdec, href, Bool.true_eq_false, and_false,
      if_false, if_neg hdec, if_pos rfl, hlo, hhi, if_pos (And.intro hq0 hq1),
      Option.bind_some, id]
    rcases hnb0 : (numTypeBounds f.qid1).1 with - | y0 <;>
      rcases hnb1 : (numTypeBounds f.qid1).2 with - | y1 <;>
      simp only [elideBound] <;>
      [skip; by_cases h1 : hi = y1; by_cases h0 : lo = y0;
        (by_cases h0 : lo = y0 <;> by_cases h1 : hi = y1)] <;>
      simp_all
  · simp only [headerArgChecks, writeFuncImplArgChecks, if_true]
    by_cases h : (fields.map checksOfField).flatten = [] <;> simp [h]

/-- Witness for C6: a `ptr`-typed argument `dst` yields a non-null check in
the emitted header, and a `base.u8[0:100]` argument `x` yields only the
upper-bound check, the lower refinement bound 0 matching u8's natural lower
bound. -/
theorem c6_arg_checks_witness :
    (∃ cs,
      headerArgChecks true
          [⟨"dst", IDPtr, 0, 0, none, none⟩,
           ⟨"x", 0, IDBase, IDU8, some (some 0), some (some 100)⟩] =
        some cs ∧ ArgCheck.notNull "dst" ∈ cs) ∧
    checksOfField ⟨"x", 0, IDBase, IDU8, some (some 0), some (some 100)⟩ =
      [.boundHi "x" 100] :=
  ⟨(c6_arg_checks
      [⟨"dst", IDPtr, 0, 0, none, none⟩,
       ⟨"x", 0, IDBase, IDU8, some (some 0), some (some 100)⟩]).1
      ⟨"dst", IDPtr, 0, 0, none, none⟩ (by simp) rfl,
   ((c6_arg_checks []).2.1
      ⟨"x", 0, IDBase, IDU8, some (some 0), some (some 100)⟩ 0 100
      (by decide) rfl (by decide) rfl rfl).trans (by decide)⟩

end Wuffs
